import Mathlib

/-!
Verification of the face-masking pipeline of the `face_ersaser` repository.

The repository is a Next.js application whose algorithmic core is the
`applyGreyFaceMask` pipeline and its helpers (`eraseRegionSmart`,
`paintFaceWithSkinColor`, the inline cheek-color sampler, and the
full-surface desaturation loop).  The source contains several
near-duplicate pipeline variants; the ones embedded here are:

* `applyGreyFaceMaskErase` — the destination-out variant
  (src/unnamed/part_001 lines 36-98): draw, sample cheeks [3,13],
  fill the face silhouette, erase the four feature regions.
* `applyGreyFaceMaskDesat` — the monochrome variant
  (src/src/app/page.tsx lines 740-791): draw, desaturate the whole
  surface, luma-sample cheeks [3,13], fill the face silhouette.
* `applyGreyFaceMaskLuma` — the variant at src/src/app/page.tsx
  lines 50-90, which references an identifier `skinColor` that is not
  bound in its module scope.

The raster surface is a flat row-major RGBA byte buffer, exactly the
shape of `ImageData.data`.  Vector drawing (canvas `clip` + `fillRect`,
and `destination-out` fill/stroke) is modelled at pixel granularity:
a pixel is affected when its centre point is covered (non-zero winding
for fills, Euclidean distance to the outline for strokes); this is the
standard idealisation of canvas rasterisation without anti-aliasing.
JavaScript `NaN` arising from reading a typed array out of bounds is
modelled by `Option`: `none` is `NaN`/`undefined` and propagates
through arithmetic.
-/

namespace FaceEraser

/-- Planar point with rational coordinates, image pixel space, origin top-left, y-down. -/
structure Pt where
  x : ℚ
  y : ℚ
deriving DecidableEq, Repr

/-- Raster surface: width, height and a flat row-major RGBA byte buffer
(4 entries per pixel), the shape of a canvas `ImageData`. -/
structure Canvas where
  w : ℕ
  h : ℕ
  data : List ℕ
deriving DecidableEq, Repr

/-- Result of the landmark provider: the ordered 68 landmark positions
(`detection.landmarks.positions` of face-api.js). -/
structure Detection where
  positions : List Pt
deriving DecidableEq, Repr

/-- JavaScript exceptions observable from the pipeline code. -/
inductive JsErr where
  | thrown (msg : String)
  | referenceError (ident : String)
  | typeError (msg : String)
deriving DecidableEq, Repr

/-- The distinguished failure thrown by every pipeline variant when the
landmark provider returns no detection: `throw new Error` with the message `No face detected`. -/
def noFaceDetected : JsErr := .thrown ("No face detected")

/-- JavaScript `Math.round`: nearest integer, halves round toward plus infinity. -/
def jsRound (q : ℚ) : ℤ := ⌊q + 1/2⌋

/-- Round to nearest with ties to even, the rounding used when a JavaScript
number is stored into a `Uint8ClampedArray` element. -/
def roundHalfEven (q : ℚ) : ℤ :=
  if q - ⌊q⌋ < 1/2 then ⌊q⌋
  else if 1/2 < q - ⌊q⌋ then ⌊q⌋ + 1
  else if ⌊q⌋ % 2 = 0 then ⌊q⌋ else ⌊q⌋ + 1

/-- Storing a JavaScript number into a `Uint8ClampedArray` element: clamp
into `[0, 255]`, then round to nearest with ties to even. -/
def clampedRound (q : ℚ) : ℕ :=
  if q ≤ 0 then 0 else if 255 ≤ q then 255 else (roundHalfEven q).toNat

/-- The greyscale conversion loop of the monochrome `applyGreyFaceMask`
(src/src/app/page.tsx lines 747-753): each RGBA quadruple `r, g, b, a`
of the `ImageData` buffer becomes `v, v, v, a` where `v` is the stored
unweighted average `(r + g + b) / 3`. -/
def desatData : List ℕ → List ℕ
  | r :: g :: b :: a :: rest =>
      let v := clampedRound ((r + g + b : ℚ) / 3)
      v :: v :: v :: a :: desatData rest
  | l => l

/-- Full-surface desaturation: `getImageData`, average the channels in
place, `putImageData` (src/src/app/page.tsx lines 747-753). -/
def desaturateOp (c : Canvas) : Canvas :=
  { c with data := desatData c.data }

/-- Closed-polygon edge list of a canvas path built by `moveTo`, `lineTo`*,
`closePath`: consecutive point pairs plus the closing edge back to the start. -/
def edgesOf (poly : List Pt) : List (Pt × Pt) :=
  match poly with
  | [] => []
  | p :: _ => poly.zip (poly.drop 1 ++ [p])

/-- Cross product used by the winding test: which side of directed edge
`a → b` the query point `q` lies on. -/
def crossE (a b q : Pt) : ℚ :=
  (b.x - a.x) * (q.y - a.y) - (q.x - a.x) * (b.y - a.y)

/-- Contribution of one edge to the non-zero winding number of `q`. -/
def windContrib (q : Pt) (e : Pt × Pt) : ℤ :=
  if e.1.y ≤ q.y ∧ q.y < e.2.y ∧ 0 < crossE e.1 e.2 q then 1
  else if e.2.y ≤ q.y ∧ q.y < e.1.y ∧ crossE e.1 e.2 q < 0 then -1
  else 0

/-- Non-zero winding membership, the default fill/clip rule of the 2D canvas. -/
def insidePoly (poly : List Pt) (q : Pt) : Bool :=
  decide (((edgesOf poly).map (windContrib q)).sum ≠ 0)

/-- Squared Euclidean distance between two points. -/
def distSq (p q : Pt) : ℚ := (p.x - q.x) ^ 2 + (p.y - q.y) ^ 2

/-- Squared distance from `q` to the segment `a b`. -/
def distSqPtSeg (q a b : Pt) : ℚ :=
  let dd := distSq a b
  if dd = 0 then distSq q a
  else
    let t := ((q.x - a.x) * (b.x - a.x) + (q.y - a.y) * (b.y - a.y)) / dd
    let t' := max 0 (min 1 t)
    distSq q ⟨a.x + t' * (b.x - a.x), a.y + t' * (b.y - a.y)⟩

/-- Stroke coverage of a closed path with line width `lw`: the point lies
within `lw / 2` of some edge of the path. -/
def strokeHit (poly : List Pt) (lw : ℚ) (q : Pt) : Bool :=
  (edgesOf poly).any fun e => decide (distSqPtSeg q e.1 e.2 ≤ (lw / 2) ^ 2)

/-- Indexed map over a byte buffer, carrying the running flat index.
Used to express pixel-granularity raster operations on the flat RGBA list. -/
def mapFrom (f : ℕ → ℕ → ℕ) : ℕ → List ℕ → List ℕ
  | _, [] => []
  | k, v :: rest => f k v :: mapFrom f (k + 1) rest

/-- Centre of pixel `(i, j)` of the raster grid. -/
def pixCenter (i j : ℕ) : Pt := ⟨(i : ℚ) + 1/2, (j : ℚ) + 1/2⟩

/-- The RGBA quadruple of pixel `(i, j)` read from the flat buffer
(`none` when the read is out of the buffer). -/
def getPx (c : Canvas) (i j : ℕ) : Option ℕ × Option ℕ × Option ℕ × Option ℕ :=
  let b := (j * c.w + i) * 4
  (c.data[b]?, c.data[b + 1]?, c.data[b + 2]?, c.data[b + 3]?)

/-- Effect of a clipped fill on one byte of the flat buffer: when the
centre of the pixel holding the byte lies inside the clip polygon, the byte becomes
the corresponding channel of the opaque fill colour; otherwise it is kept. -/
def clipFillPx (poly : List Pt) (col : ℕ × ℕ × ℕ) (w : ℕ) (idx v : ℕ) : ℕ :=
  if insidePoly poly (pixCenter (idx / 4 % w) (idx / 4 / w)) then
    match idx % 4 with
    | 0 => col.1
    | 1 => col.2.1
    | 2 => col.2.2
    | _ => 255
  else v

/-- Canvas `clip(path)` followed by `fillRect(0, 0, width, height)` with an
opaque fill colour: every pixel whose centre lies inside the clip polygon
(non-zero winding) receives the colour, every other pixel is untouched. -/
def clipFillOp (c : Canvas) (poly : List Pt) (col : ℕ × ℕ × ℕ) : Canvas :=
  { c with data := mapFrom (clipFillPx poly col c.w) 0 c.data }

/-- Effect of the destination-out fill-plus-stroke on one byte: the byte is
zeroed when its pixel centre is inside the polygon or within the stroke
band of the outline, and kept otherwise. -/
def erasePx (points : List Pt) (lw : ℚ) (w : ℕ) (idx v : ℕ) : ℕ :=
  if insidePoly points (pixCenter (idx / 4 % w) (idx / 4 / w))
      || strokeHit points lw (pixCenter (idx / 4 % w) (idx / 4 / w)) then 0
  else v

/-- The `eraseRegionSmart` helper of src/unnamed/part_001 lines 16-34:
guard regions with fewer than 2 points, then in `destination-out` mode
build the closed path through the points verbatim, stroke it with
`lineWidth = 2 * scaleFactor` and fill it, which zeroes every covered
pixel of the destination. -/
def eraseRegionSmart (c : Canvas) (points : List Pt) (scaleFactor : ℚ) : Canvas :=
  if points.length < 2 then c
  else { c with data := mapFrom (erasePx points (2 * scaleFactor) c.w) 0 c.data }

/-- The `paintFaceWithSkinColor` helper of src/src/app/page.tsx lines 34-47:
build a `Path2D` starting at `contour[0]` (a TypeError on an empty contour,
modelled as `none`), close it, clip to it and fill the whole surface. -/
def paintFaceWithSkinColor (c : Canvas) (contour : List Pt) (fillColor : ℕ × ℕ × ℕ) :
    Option Canvas :=
  match contour with
  | [] => none
  | _ :: _ => some (clipFillOp c contour fillColor)

/-- Read a byte of the flat `ImageData` buffer at a (possibly negative or
too large) flat index; `none` models JavaScript `undefined`. -/
def readByte (data : List ℕ) (idx : ℤ) : Option ℚ :=
  if idx < 0 then none else (data[idx.toNat]?).map (fun b => (b : ℚ))

/-- JavaScript addition on possibly-NaN numbers: `none` (NaN or a sum
involving `undefined`) is absorbing. -/
def jsAdd : Option ℚ → Option ℚ → Option ℚ
  | some a, some b => some (a + b)
  | _, _ => none

/-- A number triple that may hold NaN channels, the shape of the
`avgR, avgG, avgB` values of the sampler. -/
abbrev PColor := Option ℤ × Option ℤ × Option ℤ

/-- The flat indices the cheek-sampling loop reads
(src/unnamed/part_001 lines 56-63): for each point, round each coordinate
with `Math.round` and read the three colour channels at
`(y * width + x) * 4`.  No clamping is performed. -/
def sampleIdxs (c : Canvas) (pts : List Pt) : List ℤ :=
  pts.flatMap fun p =>
    let x := jsRound p.x
    let y := jsRound p.y
    let idx := (y * c.w + x) * 4
    [idx, idx + 1, idx + 2]

/-- The channel-sum accumulation loop of the cheek sampler
(src/unnamed/part_001 lines 55-63), acting on a raw buffer. -/
def sampleSums (data : List ℕ) (w : ℕ) (pts : List Pt) :
    Option ℚ × Option ℚ × Option ℚ :=
  pts.foldl (fun acc p =>
    let x := jsRound p.x
    let y := jsRound p.y
    let idx := (y * w + x) * 4
    (jsAdd acc.1 (readByte data idx),
     jsAdd acc.2.1 (readByte data (idx + 1)),
     jsAdd acc.2.2 (readByte data (idx + 2))))
    (some 0, some 0, some 0)

/-- The cheek colour sampler of src/unnamed/part_001 lines 54-66: sum each
channel over the sample points, divide by the point count and `Math.round`.
An empty point list gives `0 / 0 = NaN` in JavaScript, hence `none`. -/
def sampleColorData (data : List ℕ) (w : ℕ) (pts : List Pt) : PColor :=
  if pts.isEmpty then (none, none, none)
  else
    let s := sampleSums data w pts
    (s.1.map (fun q => jsRound (q / pts.length)),
     s.2.1.map (fun q => jsRound (q / pts.length)),
     s.2.2.map (fun q => jsRound (q / pts.length)))

/-- The spec contract `sampleColor(surface, points)`, as implemented by the
sampling block of `applyGreyFaceMask` over the buffer of the surface itself. -/
def sampleColor (c : Canvas) (pts : List Pt) : PColor :=
  sampleColorData c.data c.w pts

/-- The luma sampling loop of the monochrome variant
(src/src/app/page.tsx lines 763-770): only `data[idx]` (the red channel)
of each sample point is accumulated. -/
def lumaSample (data : List ℕ) (w : ℕ) (pts : List Pt) : Option ℚ :=
  pts.foldl (fun acc p =>
    let x := jsRound p.x
    let y := jsRound p.y
    let idx := (y * w + x) * 4
    jsAdd acc (readByte data idx)) (some 0)

/-- CSS `rgb(r, g, b)` colour resolution for the canvas `fillStyle`:
in-range integer channels are clamped into bytes; a string containing NaN
is invalid CSS, so the assignment is ignored and the `fillStyle` keeps its
default opaque black. -/
def mkFillColor : PColor → ℕ × ℕ × ℕ
  | (some r, some g, some b) =>
      ((max 0 (min 255 r)).toNat, (max 0 (min 255 g)).toNat, (max 0 (min 255 b)).toNat)
  | _ => (0, 0, 0)

/-- The cheek sample points of the two-point pipeline variants:
`[lm.positions[3], lm.positions[13]]` (src/unnamed/part_001 line 54 and
src/src/app/page.tsx line 763).  `none` models a missing position. -/
def cheekPointsMain (positions : List Pt) : List (Option Pt) :=
  [positions[3]?, positions[13]?]

/-- The cheek sample point of the single-point variant
(src/unnamed/part_000 line 82): `landmarks.positions[3]` with a canvas
centre fallback via `||` when the position is `undefined`. -/
def cheekPoint000 (positions : List Pt) (w h : ℚ) : Pt :=
  (positions[3]?).getD ⟨w / 2, h / 2⟩

/-- Dereferencing the sample points inside the `for (const p of cheekPoints)`
loop: the first missing point raises a TypeError at `p.x`. -/
def requirePts : List (Option Pt) → Except JsErr (List Pt)
  | [] => .ok []
  | none :: _ => .error (.typeError ("Cannot read properties of undefined"))
  | some p :: rest => (requirePts rest).map (p :: ·)

/-- Landmark group accessors of the face-api.js 68-point scheme
(spec section 3: jaw 17 points, each eyebrow 5, each eye 6, nose 9, mouth 20). -/
def getJawOutline (l : List Pt) : List Pt := l.take 17

/-- Left eyebrow group, positions 17-21 of the 68-point scheme. -/
def getLeftEyeBrow (l : List Pt) : List Pt := (l.drop 17).take 5

/-- Right eyebrow group, positions 22-26 of the 68-point scheme. -/
def getRightEyeBrow (l : List Pt) : List Pt := (l.drop 22).take 5

/-- Nose group, positions 27-35 of the 68-point scheme. -/
def getNose (l : List Pt) : List Pt := (l.drop 27).take 9

/-- Left eye group, positions 36-41 of the 68-point scheme. -/
def getLeftEye (l : List Pt) : List Pt := (l.drop 36).take 6

/-- Right eye group, positions 42-47 of the 68-point scheme. -/
def getRightEye (l : List Pt) : List Pt := (l.drop 42).take 6

/-- Mouth group, positions 48-67 of the 68-point scheme. -/
def getMouth (l : List Pt) : List Pt := (l.drop 48).take 20

/-- The `mergePoints` helper of src/unnamed/part_001 lines 85-87. -/
def mergePoints (a b : List Pt) : List Pt := a ++ b.reverse

/-- The face-silhouette region of `applyGreyFaceMask`
(src/unnamed/part_001 lines 69-72): both eyebrows raised by 60 pixels
followed by the reversed jaw outline. -/
def faceRegionOf (lm : List Pt) : List Pt :=
  let jaw := getJawOutline lm
  let leftBrow := (getLeftEyeBrow lm).map fun p => ⟨p.x, p.y - 60⟩
  let rightBrow := (getRightEyeBrow lm).map fun p => ⟨p.x, p.y - 60⟩
  leftBrow ++ rightBrow.reverse ++ jaw.reverse

/-- Observable steps of a pipeline run, used to state the composition
order invariant. -/
inductive Event where
  | draw
  | desaturate
  | sample
  | fillFace
  | eraseLeftEye
  | eraseRightEye
  | eraseNose
  | eraseMouth
deriving DecidableEq, Repr

/-- Predicate selecting the erase events. -/
def Event.isErase : Event → Bool
  | .eraseLeftEye | .eraseRightEye | .eraseNose | .eraseMouth => true
  | _ => false

/-- Every event satisfying `p` occurs strictly before every event
satisfying `q` in the trace. -/
def allBefore (p q : Event → Bool) : List Event → Bool
  | [] => true
  | e :: rest => (!(q e) || rest.all (fun x => !(p x))) && allBefore p q rest

/-- The composition order invariant over an event trace: the draw comes
first, any desaturation precedes the colour sample, the sample precedes
the silhouette fill, and the fill precedes every feature erase. -/
def eventOrderOK (tr : List Event) : Bool :=
  decide (tr.head? = some Event.draw)
    && allBefore (· == Event.desaturate) (· == Event.sample) tr
    && allBefore (· == Event.sample) (· == Event.fillFace) tr
    && allBefore (· == Event.fillFace) Event.isErase tr

/-- The destination-out pipeline `applyGreyFaceMask` of src/unnamed/part_001
lines 36-98: create a canvas of the image size and draw the image onto it
(copy-on-create), snapshot the buffer with `getImageData`, detect a face
(throwing the `No face detected` error when there is none), average the two
cheek pixels, clip-fill the face silhouette with that colour, then erase the
two eye+brow regions, the nose and the mouth in destination-out mode.
The result carries the JavaScript return value (or thrown error), the canvas
state at termination, and the trace of compositing steps. -/
def applyGreyFaceMaskErase (img : Canvas) (det : Option Detection) :
    Except JsErr (Canvas × PColor) × Canvas × List Event :=
  let canvas := img
  let originalData := canvas.data
  match det with
  | none => (.error noFaceDetected, canvas, [Event.draw])
  | some d =>
    let lm := d.positions
    match requirePts (cheekPointsMain lm) with
    | .error e => (.error e, canvas, [Event.draw])
    | .ok cheekPts =>
      let skinColor := sampleColorData originalData canvas.w cheekPts
      let canvas := clipFillOp canvas (faceRegionOf lm) (mkFillColor skinColor)
      let leftEyeRegion := mergePoints (getLeftEye lm) (getLeftEyeBrow lm)
      let rightEyeRegion := mergePoints (getRightEye lm) (getRightEyeBrow lm)
      let canvas := eraseRegionSmart canvas leftEyeRegion (3/2)
      let canvas := eraseRegionSmart canvas rightEyeRegion (3/2)
      let canvas := eraseRegionSmart canvas (getNose lm) (7/5)
      let canvas := eraseRegionSmart canvas (getMouth lm) (3/2)
      (.ok (canvas, skinColor), canvas,
        [Event.draw, Event.sample, Event.fillFace, Event.eraseLeftEye,
         Event.eraseRightEye, Event.eraseNose, Event.eraseMouth])

/-- The monochrome pipeline `applyGreyFaceMask` of src/src/app/page.tsx
lines 740-791: draw the image, desaturate the whole buffer in place and
`putImageData` it back, detect a face, luma-sample the two cheek points
from the (already desaturated) buffer, and clip-fill the face silhouette
with the resulting grey.  No feature regions are erased in this variant. -/
def applyGreyFaceMaskDesat (img : Canvas) (det : Option Detection) :
    Except JsErr (Canvas × PColor) × Canvas × List Event :=
  let canvas := desaturateOp img
  let data := canvas.data
  match det with
  | none => (.error noFaceDetected, canvas, [Event.draw, Event.desaturate])
  | some d =>
    let lm := d.positions
    match requirePts (cheekPointsMain lm) with
    | .error e => (.error e, canvas, [Event.draw, Event.desaturate])
    | .ok cheekPts =>
      let baseTone := (lumaSample data canvas.w cheekPts).map
        fun t => jsRound (t / cheekPts.length)
      let skinColor : PColor := (baseTone, baseTone, baseTone)
      let canvas := clipFillOp canvas (faceRegionOf lm) (mkFillColor skinColor)
      (.ok (canvas, skinColor), canvas,
        [Event.draw, Event.desaturate, Event.sample, Event.fillFace])

/-- Truncation toward zero, the WebIDL integer conversion applied to the
coordinate arguments of `getImageData` (for coordinates far below 2^31). -/
def jsTrunc (q : ℚ) : ℤ := if q < 0 then -⌊-q⌋ else ⌊q⌋

/-- The read `ctx.getImageData(x, y, 1, 1).data` as used by the sampler of the luma variant: truncate the coordinates; a pixel outside the canvas is
transparent black. -/
def getImageData1x1 (c : Canvas) (qx qy : ℚ) : ℕ × ℕ × ℕ × ℕ :=
  let x := jsTrunc qx
  let y := jsTrunc qy
  if 0 ≤ x ∧ x < c.w ∧ 0 ≤ y ∧ y < c.h then
    let b := (y.toNat * c.w + x.toNat) * 4
    ((c.data[b]?).getD 0, (c.data[b + 1]?).getD 0,
     (c.data[b + 2]?).getD 0, (c.data[b + 3]?).getD 0)
  else (0, 0, 0, 0)

/-- The face contour builder `getFullFaceContour` of src/src/app/page.tsx
lines 20-33: jaw outline followed by the reversed forehead estimate
(both eyebrows raised by 50 pixels). -/
def getFullFaceContour (lm : List Pt) : List Pt :=
  let jaw := getJawOutline lm
  let leftForehead := (getLeftEyeBrow lm).map fun p => ⟨p.x, p.y - 50⟩
  let rightForehead := (getRightEyeBrow lm).map fun p => ⟨p.x, p.y - 50⟩
  let topContour := leftForehead ++ rightForehead.reverse
  jaw ++ topContour.reverse

/-- Identifiers visible at src/src/app/page.tsx line 81
(`ctx.strokeStyle = skinColor`): the locals of that `applyGreyFaceMask`,
the module-level declarations of lines 1-187, and the module imports.
No binding named `skinColor` exists in any of these scopes (the only
`skinColor` of that document is a `useState` local inside `Home`). -/
def lumaVariantScope : List String :=
  ["React", "useState", "useRef", "useEffect", "faceapi", "Button", "Card",
   "CardContent", "CardDescription", "CardHeader", "CardTitle", "Input",
   "Eraser", "loadModels", "sampleSkinColor", "getFullFaceContour",
   "paintFaceWithSkinColor", "skinToneGrey", "applyGreyFaceMask", "Home",
   "image", "canvas", "ctx", "detection", "landmarks", "cheekPoints",
   "total", "point", "pixel", "baseTone", "skinColorString", "fullFaceContour"]

/-- The luma-sampling mask variant `applyGreyFaceMask` of
src/src/app/page.tsx lines 50-90: draw the image, detect a face, average
the luma of landmark points 3, 43 and 46 via 1x1 `getImageData` reads,
then execute line 81 `ctx.strokeStyle = skinColor`, which resolves the
identifier `skinColor` against the scope chain; an unresolved identifier
raises a ReferenceError. -/
def applyGreyFaceMaskLuma (img : Canvas) (det : Option Detection) :
    Except JsErr (Canvas × PColor) × Canvas :=
  let canvas := img
  match det with
  | none => (.error noFaceDetected, canvas)
  | some d =>
    let lm := d.positions
    match requirePts [lm[3]?, lm[43]?, lm[46]?] with
    | .error e => (.error e, canvas)
    | .ok cheekPts =>
      let total : ℚ := (cheekPts.map fun p =>
        let px := getImageData1x1 canvas p.x p.y
        ((px.1 : ℚ) + (px.2.1 : ℚ) + (px.2.2.1 : ℚ)) / 3).sum
      let baseTone := jsRound (total / cheekPts.length)
      if lumaVariantScope.contains ("skinColor") then
        let col : PColor := (some baseTone, some baseTone, some baseTone)
        match paintFaceWithSkinColor canvas (getFullFaceContour lm) (mkFillColor col) with
        | none => (.error (.typeError ("Cannot read properties of undefined")), canvas)
        | some canvas2 => (.ok (canvas2, col), canvas2)
      else (.error (.referenceError ("skinColor")), canvas)

/-- The grey tone computed by the monochrome pipeline: the luma sample of
the two cheek points read from the desaturated buffer, divided by the
point count and rounded. -/
def desatSampledTone (img : Canvas) (p1 p2 : Pt) : Option ℤ :=
  (lumaSample (desatData img.data) img.w [p1, p2]).map
    fun t => jsRound (t / ([p1, p2].length : ℚ))

/-- Concrete inputs used by the witnesses below. -/
def tinyImg : Canvas := ⟨1, 1, [10, 20, 30, 255]⟩

/-- A 68-point landmark list: position `i` is `(i, 0)`. -/
def stdPositions : List Pt := (List.range 68).map fun (i : ℕ) => ⟨(i : ℚ), 0⟩

/-- A detection carrying the standard 68-point landmark list. -/
def stdDetection : Detection := ⟨stdPositions⟩

/-- Formalisation of the behaviour claim C3 ascribes to the erase
operation: translate the points so the centroid is at the origin, multiply
both coordinates by `scaleFactor`, translate back. -/
def centroidScale (pts : List Pt) (sf : ℚ) : List Pt :=
  let n : ℚ := pts.length
  let cx := (pts.map Pt.x).sum / n
  let cy := (pts.map Pt.y).sum / n
  pts.map fun p => ⟨cx + sf * (p.x - cx), cy + sf * (p.y - cy)⟩

/-- Effect on one byte of the clip-and-clear described by claim C3. -/
def clearPx (poly : List Pt) (w : ℕ) (idx v : ℕ) : ℕ :=
  if insidePoly poly (pixCenter (idx / 4 % w) (idx / 4 / w)) then 0 else v

/-- Formalisation of the erase semantics claim C3 ascribes to the code:
clip to the centroid-scaled polygon and clear exactly those pixels. -/
def eraseRegionClaimed (c : Canvas) (pts : List Pt) (sf : ℚ) : Canvas :=
  if pts.length < 2 then c
  else { c with data := mapFrom (clearPx (centroidScale pts sf) c.w) 0 c.data }

/-- An opaque white 8x8 canvas. -/
def whiteCanvas : Canvas := ⟨8, 8, List.replicate 256 255⟩

/-- A triangular region used by the erase monotonicity witness. -/
def triRegion : List Pt := [⟨2, 2⟩, ⟨7, 2⟩, ⟨2, 7⟩]

/-- An opaque white 64x64 canvas. -/
def bigCanvas : Canvas := ⟨64, 64, List.replicate 16384 255⟩

/-- A triangular region used by the erase counterexample. -/
def triRegionB : List Pt := [⟨30, 30⟩, ⟨40, 30⟩, ⟨30, 40⟩]

/-- The rounded coordinates of `p` lie inside `[0, w-1] x [0, h-1]`. -/
def ptInRange (c : Canvas) (p : Pt) : Prop :=
  0 ≤ jsRound p.x ∧ jsRound p.x < c.w ∧ 0 ≤ jsRound p.y ∧ jsRound p.y < c.h

instance (c : Canvas) (p : Pt) : Decidable (ptInRange c p) := by
  unfold ptInRange
  infer_instance

/-- The flat base index the sampling loop computes for `p`:
`(Math.round(p.y) * width + Math.round(p.x)) * 4`. -/
def rbIdx (w : ℕ) (p : Pt) : ℤ := (jsRound p.y * w + jsRound p.x) * 4

/-- The byte the buffer holds at channel `t` of the pixel the sampler
addresses for `p` (0 when the read is out of the buffer). -/
def chanAt (c : Canvas) (p : Pt) (t : ℕ) : ℚ :=
  (((c.data[(rbIdx c.w p + (t : ℤ)).toNat]?).getD 0 : ℕ) : ℚ)

/-- A 2x1 canvas whose two pixels are both the pure colour (200,150,100). -/
def twoPixCanvas : Canvas := ⟨2, 1, [200, 150, 100, 255, 200, 150, 100, 255]⟩

/-- Formalisation of the behaviour claim C5 ascribes to the sampler: round
each coordinate to the nearest integer, clamp it into
`[0, width-1] x [0, height-1]`, and only then read the pixel. -/
def sampleColorClamped (c : Canvas) (pts : List Pt) : PColor :=
  if pts.isEmpty then (none, none, none)
  else
    let s := pts.foldl (fun acc p =>
      let x := max 0 (min ((c.w : ℤ) - 1) (jsRound p.x))
      let y := max 0 (min ((c.h : ℤ) - 1) (jsRound p.y))
      let idx := (y * c.w + x) * 4
      (jsAdd acc.1 (readByte c.data idx),
       jsAdd acc.2.1 (readByte c.data (idx + 1)),
       jsAdd acc.2.2 (readByte c.data (idx + 2))))
      (some 0, some 0, some 0)
    (s.1.map (fun q => jsRound (q / pts.length)),
     s.2.1.map (fun q => jsRound (q / pts.length)),
     s.2.2.map (fun q => jsRound (q / pts.length)))

/-- A 2x2 canvas whose 16 bytes are 0..15. -/
def gridCanvas : Canvas :=
  ⟨2, 2, [0, 1, 2, 3, 4, 5, 6, 7, 8, 9, 10, 11, 12, 13, 14, 15]⟩

theorem clampedRound_le (q : ℚ) : clampedRound q ≤ 255 := by
  unfold clampedRound
  split
  · omega
  · split
    · omega
    · rename_i h0 h255
      have hfloor : ⌊q⌋ < 255 := by
        rw [Int.floor_lt]
        push_cast
        linarith [lt_of_not_le h255]
      have : roundHalfEven q ≤ ⌊q⌋ + 1 := by
        unfold roundHalfEven
        split
        · omega
        · split
          · omega
          · split <;> omega
      omega

theorem clampedRound_natCast (v : ℕ) (hv : v ≤ 255) : clampedRound (v : ℚ) = v := by
  unfold clampedRound
  rcases Nat.eq_zero_or_pos v with h0 | hpos
  · subst h0; norm_num
  · have h1 : ¬ ((v : ℚ) ≤ 0) := by
      push_neg
      exact_mod_cast hpos
    rw [if_neg h1]
    by_cases h2 : (255 : ℚ) ≤ (v : ℚ)
    · have : (255 : ℕ) ≤ v := by exact_mod_cast h2
      have hv255 : v = 255 := le_antisymm hv this
      rw [if_pos h2, hv255]
    · rw [if_neg h2]
      have hfl : ⌊(v : ℚ)⌋ = (v : ℤ) := Int.floor_natCast v
      unfold roundHalfEven
      rw [hfl]
      have hr : (v : ℚ) - (v : ℤ) = 0 := by push_cast; ring
      rw [hr, if_pos (by norm_num)]
      omega

theorem desatData_idem (l : List ℕ) : desatData (desatData l) = desatData l := by
  induction l using desatData.induct with
  | case1 r g b a rest ih =>
      have hv : clampedRound ((r + g + b : ℚ) / 3) ≤ 255 := clampedRound_le _
      set v := clampedRound ((r + g + b : ℚ) / 3) with hvdef
      have havg : ((v : ℚ) + v + v) / 3 = (v : ℚ) := by ring
      simp only [desatData, havg, clampedRound_natCast v hv, ih]
  | case2 l hne =>
      have : desatData l = l := by
        unfold desatData
        split
        · rename_i r g b a rest
          exact absurd rfl (hne r g b a rest)
        · rfl
      rw [this, this]

theorem mapFrom_getElem? (f : ℕ → ℕ → ℕ) (k n : ℕ) (l : List ℕ) :
    (mapFrom f k l)[n]? = (l[n]?).map (f (k + n)) := by
  induction l generalizing k n with
  | nil => simp [mapFrom]
  | cons v rest ih =>
      cases n with
      | zero => simp [mapFrom]
      | succ m =>
          have hk : k + (m + 1) = (k + 1) + m := by omega
          simp only [mapFrom, List.getElem?_cons_succ, ih (k + 1) m, hk]

theorem mapFrom_length (f : ℕ → ℕ → ℕ) (k : ℕ) (l : List ℕ) :
    (mapFrom f k l).length = l.length := by
  induction l generalizing k with
  | nil => rfl
  | cons v rest ih => simp [mapFrom, ih]

theorem requirePts_cheekPointsMain (lm : List Pt) (h3 : 3 < lm.length)
    (h13 : 13 < lm.length) :
    requirePts (cheekPointsMain lm) = .ok [lm[3], lm[13]] := by
  simp [cheekPointsMain, List.getElem?_eq_getElem, h3, h13, requirePts, Except.map]

/-- C1: in every pipeline execution that reaches compositing, the base
image is drawn first; desaturation, when present, precedes the colour
sample (the monochrome variant samples the already-desaturated buffer,
as the last conjunct states); the sample precedes the silhouette fill;
and every feature erase comes after the fill. -/
theorem mask_composition_order (img : Canvas) (d : Detection)
    (h : d.positions.length = 68) :
    (applyGreyFaceMaskErase img (some d)).2.2
        = [Event.draw, Event.sample, Event.fillFace, Event.eraseLeftEye,
           Event.eraseRightEye, Event.eraseNose, Event.eraseMouth]
      ∧ (applyGreyFaceMaskDesat img (some d)).2.2
        = [Event.draw, Event.desaturate, Event.sample, Event.fillFace]
      ∧ eventOrderOK (applyGreyFaceMaskErase img (some d)).2.2 = true
      ∧ eventOrderOK (applyGreyFaceMaskDesat img (some d)).2.2 = true
      ∧ (applyGreyFaceMaskDesat img (some d)).1.map Prod.snd
        = .ok (desatSampledTone img d.positions[3] d.positions[13],
               desatSampledTone img d.positions[3] d.positions[13],
               desatSampledTone img d.positions[3] d.positions[13]) := by
  have hreq := requirePts_cheekPointsMain d.positions (by omega) (by omega)
  refine ⟨?_, ?_, ?_, ?_, ?_⟩ <;>
    simp only [applyGreyFaceMaskErase, applyGreyFaceMaskDesat, desaturateOp,
      hreq, desatSampledTone, Except.map] <;>
    rfl

/-- Witness for C1 at a concrete image and 68-point detection. -/
theorem mask_composition_order_witness :
    (applyGreyFaceMaskErase tinyImg (some stdDetection)).2.2
        = [Event.draw, Event.sample, Event.fillFace, Event.eraseLeftEye,
           Event.eraseRightEye, Event.eraseNose, Event.eraseMouth]
      ∧ eventOrderOK (applyGreyFaceMaskErase tinyImg (some stdDetection)).2.2 = true := by
  have h := mask_composition_order tinyImg stdDetection (by decide)
  exact ⟨h.1, h.2.2.1⟩

/-- C2 counterexample: in the desaturating variant the surface at the
`NoFaceDetected` failure is not the post-draw-image state — on a concrete
non-grey image the buffer has been desaturated before detection runs. -/
theorem noDetection_surface_changed_counterexample :
    (applyGreyFaceMaskDesat tinyImg none).2.1 ≠ tinyImg
      ∧ (applyGreyFaceMaskDesat tinyImg none).1 = .error noFaceDetected := by
  have hd : desatData [10, 20, 30, 255] = [20, 20, 20, 255] := by
    norm_num [desatData, clampedRound, roundHalfEven]
    decide
  constructor
  · show desaturateOp tinyImg ≠ tinyImg
    simp [desaturateOp, tinyImg, hd]
  · rfl

/-- C2 (amended): with no detection, both pipeline variants terminate with
the distinguished `No face detected` error and apply no fill, erase or
colour-sampling effect; the surface of the plain variant is exactly the
post-draw state, while the surface of the desaturating variant is the
desaturated post-draw state. -/
theorem noDetection_terminal (img : Canvas) :
    applyGreyFaceMaskErase img none = (.error noFaceDetected, img, [Event.draw])
      ∧ applyGreyFaceMaskDesat img none
        = (.error noFaceDetected, desaturateOp img, [Event.draw, Event.desaturate]) :=
  ⟨rfl, rfl⟩

/-- C8: the full-surface desaturation is idempotent — applying it twice
yields a buffer identical to applying it once, because a pixel whose three
channels already equal the stored average is a fixed point. -/
theorem desaturate_idempotent (c : Canvas) :
    desaturateOp (desaturateOp c) = desaturateOp c := by
  unfold desaturateOp
  simp [desatData_idem]

/-- C10: the luma-sampling variant at src/src/app/page.tsx lines 50-90
always evaluates the identifier `skinColor`, which is bound in none of its
scopes, when executing line 81; hence every run with a detection ends in a
ReferenceError and the success path is unreachable. -/
theorem lumaVariant_always_throws (img : Canvas) (d : Detection)
    (h : d.positions.length = 68) :
    (applyGreyFaceMaskLuma img (some d)).1 = .error (.referenceError ("skinColor"))
      ∧ lumaVariantScope.contains ("skinColor") = false := by
  have e3 := List.getElem?_eq_getElem (show 3 < d.positions.length by omega)
  have e43 := List.getElem?_eq_getElem (show 43 < d.positions.length by omega)
  have e46 := List.getElem?_eq_getElem (show 46 < d.positions.length by omega)
  constructor
  · simp only [applyGreyFaceMaskLuma, e3, e43, e46, requirePts, Except.map]
    rfl
  · decide

/-- Witness for C10 at a concrete image and 68-point detection. -/
theorem lumaVariant_always_throws_witness :
    (applyGreyFaceMaskLuma tinyImg (some stdDetection)).1
      = .error (.referenceError ("skinColor")) :=
  (lumaVariant_always_throws tinyImg stdDetection (by decide)).1

theorem windContrib_degenerate (q p : Pt) : windContrib q (p, p) = 0 := by
  unfold windContrib
  rw [if_neg, if_neg]
  · rintro ⟨ha, hb, -⟩
    exact absurd (lt_of_le_of_lt ha hb) (lt_irrefl _)
  · rintro ⟨ha, hb, -⟩
    exact absurd (lt_of_le_of_lt ha hb) (lt_irrefl _)

theorem insidePoly_singleton (p : Pt) : ∀ q, insidePoly [p] q = false := by
  intro q
  simp [insidePoly, edgesOf, windContrib_degenerate]

theorem mapFrom_id (f : ℕ → ℕ → ℕ) (hf : ∀ k v, f k v = v) (k : ℕ) (l : List ℕ) :
    mapFrom f k l = l := by
  induction l generalizing k with
  | nil => rfl
  | cons v rest ih => simp [mapFrom, hf, ih]

theorem clipFillOp_of_notInside (c : Canvas) (poly : List Pt) (col : ℕ × ℕ × ℕ)
    (h : ∀ q, insidePoly poly q = false) : clipFillOp c poly col = c := by
  unfold clipFillOp
  rw [mapFrom_id _ (fun k v => by simp [clipFillPx, h]) 0 c.data]

/-- C6 counterexample: `fillRegion` is not a silent no-op on every region
with fewer than 2 points — `paintFaceWithSkinColor` on the empty region
throws a TypeError (reading `contour[0].x` of an empty array), modelled
by `none`, instead of leaving the surface unchanged. -/
theorem fillRegion_empty_fails_counterexample :
    paintFaceWithSkinColor tinyImg [] (200, 200, 200) = none := rfl

/-- C6 (amended): a region with fewer than 2 points is a guarded silent
no-op for `eraseRegionSmart`; `paintFaceWithSkinColor` is a silent no-op
for a one-point region (the degenerate clip path has no interior), but it
throws on an empty region (see the counterexample). -/
theorem degenerate_region_noop (c : Canvas) (pts : List Pt) (sf : ℚ)
    (col : ℕ × ℕ × ℕ) (p : Pt) (h : pts.length < 2) :
    eraseRegionSmart c pts sf = c ∧ paintFaceWithSkinColor c [p] col = some c := by
  constructor
  · unfold eraseRegionSmart
    rw [if_pos h]
  · show some (clipFillOp c [p] col) = some c
    rw [clipFillOp_of_notInside c [p] col (insidePoly_singleton p)]

/-- Witness for C6 (amended) at a concrete canvas, region and colour. -/
theorem degenerate_region_noop_witness :
    eraseRegionSmart tinyImg [⟨0, 0⟩] 1 = tinyImg
      ∧ paintFaceWithSkinColor tinyImg [⟨0, 0⟩] (200, 200, 200) = some tinyImg :=
  degenerate_region_noop tinyImg [⟨0, 0⟩] 1 (200, 200, 200) ⟨0, 0⟩ (by decide)

theorem pixIdx_div (cw i j t : ℕ) (ht : t < 4) :
    ((j * cw + i) * 4 + t) / 4 = j * cw + i := by
  omega

theorem pixIdx_decode_fst (cw i j t : ℕ) (hi : i < cw) (ht : t < 4) :
    ((j * cw + i) * 4 + t) / 4 % cw = i := by
  rw [pixIdx_div cw i j t ht, Nat.mul_comm j cw, Nat.mul_add_mod, Nat.mod_eq_of_lt hi]

theorem pixIdx_decode_snd (cw i j t : ℕ) (hi : i < cw) (ht : t < 4) :
    ((j * cw + i) * 4 + t) / 4 / cw = j := by
  have hw : 0 < cw := lt_of_le_of_lt (Nat.zero_le i) hi
  rw [pixIdx_div cw i j t ht, Nat.mul_comm j cw, Nat.mul_add_div hw,
    Nat.div_eq_of_lt hi, Nat.add_zero]

theorem clipFillPx_outside (poly : List Pt) (col : ℕ × ℕ × ℕ) (w i j t v : ℕ)
    (hi : i < w) (ht : t < 4)
    (hout : insidePoly poly (pixCenter i j) = false) :
    clipFillPx poly col w ((j * w + i) * 4 + t) v = v := by
  unfold clipFillPx
  rw [pixIdx_decode_fst w i j t hi ht, pixIdx_decode_snd w i j t hi ht, hout]
  rfl

theorem clipFillOp_getElem_outside (c : Canvas) (poly : List Pt)
    (col : ℕ × ℕ × ℕ) (i j t : ℕ) (hi : i < c.w) (ht : t < 4)
    (hout : insidePoly poly (pixCenter i j) = false) :
    (clipFillOp c poly col).data[(j * c.w + i) * 4 + t]? = c.data[(j * c.w + i) * 4 + t]? := by
  show (mapFrom (clipFillPx poly col c.w) 0 c.data)[(j * c.w + i) * 4 + t]? = _
  rw [mapFrom_getElem?, Nat.zero_add]
  cases hv : c.data[(j * c.w + i) * 4 + t]? with
  | none => rfl
  | some v =>
      simp only [Option.map_some']
      rw [clipFillPx_outside poly col c.w i j t v hi ht hout]

/-- C7: for every region with at least 2 points, the clipped fill changes
only pixels whose centre lies inside the region polygon; every pixel whose
centre is strictly outside keeps all four bytes bit-identical to the
pre-call surface. -/
theorem fillRegion_frame_effect (c : Canvas) (contour : List Pt)
    (col : ℕ × ℕ × ℕ) (i j : ℕ) (h2 : 2 ≤ contour.length) (hi : i < c.w)
    (hout : insidePoly contour (pixCenter i j) = false) :
    (paintFaceWithSkinColor c contour col).map (fun c2 => getPx c2 i j)
      = some (getPx c i j) := by
  obtain ⟨p, rest, rfl⟩ : ∃ p rest, contour = p :: rest := by
    cases contour with
    | nil => simp at h2
    | cons a b => exact ⟨a, b, rfl⟩
  show some (getPx (clipFillOp c (p :: rest) col) i j) = some (getPx c i j)
  unfold getPx
  have h0 := clipFillOp_getElem_outside c (p :: rest) col i j 0 hi (by omega) hout
  have h1 := clipFillOp_getElem_outside c (p :: rest) col i j 1 hi (by omega) hout
  have h2e := clipFillOp_getElem_outside c (p :: rest) col i j 2 hi (by omega) hout
  have h3 := clipFillOp_getElem_outside c (p :: rest) col i j 3 hi (by omega) hout
  have hw : (clipFillOp c (p :: rest) col).w = c.w := rfl
  rw [Nat.add_zero] at h0
  simp only [hw, h0, h1, h2e, h3]

/-- Witness for C7: a concrete 2x2 canvas, a triangle region and the
outside pixel `(0, 0)`. -/
theorem fillRegion_frame_effect_witness :
    (paintFaceWithSkinColor ⟨2, 2, List.replicate 16 9⟩
        [⟨5, 5⟩, ⟨9, 5⟩, ⟨5, 9⟩] (200, 200, 200)).map
        (fun c2 => getPx c2 0 0)
      = some (getPx ⟨2, 2, List.replicate 16 9⟩ 0 0) := by
  apply fillRegion_frame_effect ⟨2, 2, List.replicate 16 9⟩
    [⟨5, 5⟩, ⟨9, 5⟩, ⟨5, 9⟩] (200, 200, 200) 0 0 (by decide) (by decide)
  norm_num [insidePoly, edgesOf, windContrib, crossE, pixCenter]

/-- C3 counterexample: `eraseRegionSmart` does not centroid-scale before
clipping.  With `scaleFactor = 10`, the centre of pixel `(1, 50)` lies
inside the centroid-scaled triangle (so the claimed semantics clears the
pixel), yet it is more than 30 pixels away from every point of the raw
triangle — far beyond the stroke half-width 10 and beyond the farthest
possible miter-join extent — so the code leaves the pixel opaque white;
the two operations disagree on a concrete canvas (flat byte index
`(50 * 64 + 1) * 4 = 12804`). -/
theorem erase_not_centroid_scaled_counterexample :
    (eraseRegionSmart bigCanvas triRegionB 10).data[12804]? = some 255
      ∧ (eraseRegionClaimed bigCanvas triRegionB 10).data[12804]? = some 0
      ∧ eraseRegionSmart bigCanvas triRegionB 10 ≠ eraseRegionClaimed bigCanvas triRegionB 10 := by
  have hsmart : (eraseRegionSmart bigCanvas triRegionB 10).data[12804]?
      = ((List.replicate 16384 255)[12804]?).map (erasePx triRegionB 20 64 12804) := by
    show (mapFrom (erasePx triRegionB (2 * 10) 64) 0 (List.replicate 16384 255))[12804]? = _
    rw [mapFrom_getElem?, Nat.zero_add]
    norm_num
  have hclaim : (eraseRegionClaimed bigCanvas triRegionB 10).data[12804]?
      = ((List.replicate 16384 255)[12804]?).map
          (clearPx (centroidScale triRegionB 10) 64 12804) := by
    show (mapFrom (clearPx (centroidScale triRegionB 10) 64) 0
      (List.replicate 16384 255))[12804]? = _
    rw [mapFrom_getElem?, Nat.zero_add]
  have hrep : (List.replicate 16384 (255 : ℕ))[12804]? = some 255 := by
    rw [List.getElem?_eq_getElem (by rw [List.length_replicate]; omega), List.getElem_replicate]
  have hout : erasePx triRegionB 20 64 12804 255 = 255 := by
    norm_num [erasePx, insidePoly, edgesOf, windContrib, crossE, pixCenter,
      strokeHit, distSqPtSeg, distSq, triRegionB, min_def, max_def]
  have hin : clearPx (centroidScale triRegionB 10) 64 12804 255 = 0 := by
    norm_num [clearPx, centroidScale, insidePoly, edgesOf, windContrib, crossE,
      pixCenter, triRegionB]
  have h1 : (eraseRegionSmart bigCanvas triRegionB 10).data[12804]? = some 255 := by
    rw [hsmart, hrep, Option.map_some', hout]
  have h2 : (eraseRegionClaimed bigCanvas triRegionB 10).data[12804]? = some 0 := by
    rw [hclaim, hrep, Option.map_some', hin]
  refine ⟨h1, h2, fun hcontra => ?_⟩
  rw [hcontra, h2] at h1
  exact absurd h1 (by simp)

theorem strokeHit_mono (poly : List Pt) (lw lw2 : ℚ) (q : Pt) (h0 : 0 ≤ lw)
    (hle : lw ≤ lw2) (h : strokeHit poly lw q = true) : strokeHit poly lw2 q = true := by
  unfold strokeHit at h ⊢
  rw [List.any_eq_true] at h ⊢
  obtain ⟨e, he, hd⟩ := h
  refine ⟨e, he, ?_⟩
  rw [decide_eq_true_eq] at hd ⊢
  have hsq : (lw / 2) ^ 2 ≤ (lw2 / 2) ^ 2 := by
    apply pow_le_pow_left₀ (by linarith) (by linarith)
  linarith

/-- C3 (amended): `eraseRegionSmart` builds its path verbatim from the points of the caller and never centroid-scales them; `scaleFactor` only sets
the stroke width `2 * scaleFactor` laid over the outline, so enlarging a
nonnegative factor can only grow the cleared pixel set: every byte the
erase zeroes at factor `sf` is also zeroed at any factor `sf2 ≥ sf`. -/
theorem eraseRegionSmart_monotone (c : Canvas) (pts : List Pt) (sf sf2 : ℚ)
    (h2 : 2 ≤ pts.length) (h0 : 0 ≤ sf) (hle : sf ≤ sf2) (n : ℕ)
    (hz : (eraseRegionSmart c pts sf).data[n]? = some 0) :
    (eraseRegionSmart c pts sf2).data[n]? = some 0 := by
  have hnot : ¬ pts.length < 2 := by omega
  unfold eraseRegionSmart at hz ⊢
  rw [if_neg hnot] at hz ⊢
  show (mapFrom (erasePx pts (2 * sf2) c.w) 0 c.data)[n]? = some 0
  rw [mapFrom_getElem?, Nat.zero_add]
  have hz2 : (mapFrom (erasePx pts (2 * sf) c.w) 0 c.data)[n]? = some 0 := hz
  rw [mapFrom_getElem?, Nat.zero_add] at hz2
  cases hv : c.data[n]? with
  | none => rw [hv] at hz2; exact absurd hz2 (by simp)
  | some v =>
      rw [hv] at hz2
      rw [Option.map_some'] at hz2 ⊢
      have hv0 : erasePx pts (2 * sf) c.w n v = 0 := Option.some.inj hz2
      unfold erasePx at hv0 ⊢
      by_cases hcond : (insidePoly pts (pixCenter (n / 4 % c.w) (n / 4 / c.w))
          || strokeHit pts (2 * sf2) (pixCenter (n / 4 % c.w) (n / 4 / c.w))) = true
      · rw [if_pos hcond]
      · rw [if_neg hcond]
        rw [Bool.or_eq_true, not_or] at hcond
        obtain ⟨hinF, hstF⟩ := hcond
        have hstF1 : ¬ strokeHit pts (2 * sf) (pixCenter (n / 4 % c.w) (n / 4 / c.w)) = true := by
          intro hst
          exact hstF (strokeHit_mono pts (2 * sf) (2 * sf2)
            (pixCenter (n / 4 % c.w) (n / 4 / c.w)) (by linarith) (by linarith) hst)
        have hcondS : ¬ (insidePoly pts (pixCenter (n / 4 % c.w) (n / 4 / c.w))
            || strokeHit pts (2 * sf) (pixCenter (n / 4 % c.w) (n / 4 / c.w))) = true := by
          rw [Bool.or_eq_true]
          rintro (hA | hB)
          · exact hinF hA
          · exact hstF1 hB
        rw [if_neg hcondS] at hv0
        exact congrArg some hv0

/-- Witness for C3 (amended): a byte cleared at factor 1 is cleared at
factor 2 on a concrete canvas and triangle. -/
theorem eraseRegionSmart_monotone_witness :
    (eraseRegionSmart whiteCanvas triRegion 2).data[108]? = some 0 := by
  apply eraseRegionSmart_monotone whiteCanvas triRegion 1 2 (by decide)
    (by norm_num) (by norm_num) 108
  show (mapFrom (erasePx triRegion (2 * 1) 8) 0 (List.replicate 256 255))[108]? = some 0
  rw [mapFrom_getElem?, Nat.zero_add]
  have hrep : (List.replicate 256 (255 : ℕ))[108]? = some 255 := by
    rw [List.getElem?_eq_getElem (by rw [List.length_replicate]; omega), List.getElem_replicate]
  rw [hrep, Option.map_some']
  have : erasePx triRegion (2 * 1) 8 108 255 = 0 := by
    norm_num [erasePx, insidePoly, edgesOf, windContrib, crossE, pixCenter, triRegion]
  rw [this]

/-- C9 counterexample: no variant matches the claim as stated.  The only
variant with a canvas-centre fallback (src/unnamed/part_000 line 82)
samples exactly one point — landmark 3, never landmark 13 — while the
two-point variants have no fallback at all: when landmark positions are
unavailable they throw a TypeError at `p.x` instead of sampling the
canvas centre. -/
theorem cheek_sampling_counterexample :
    cheekPoint000 stdPositions 100 100 = ⟨3, 0⟩
      ∧ (⟨13, 0⟩ : Pt) ≠ cheekPoint000 stdPositions 100 100
      ∧ (applyGreyFaceMaskErase tinyImg (some ⟨[]⟩)).1
        = .error (.typeError ("Cannot read properties of undefined")) := by
  have h3 : stdPositions[3]? = some ⟨(3 : ℚ), 0⟩ := by
    norm_num [stdPositions, List.getElem?_map, List.getElem?_range]
  refine ⟨?_, ?_, rfl⟩
  · rw [cheekPoint000, h3]
    rfl
  · rw [cheekPoint000, h3]
    simp only [Option.getD_some, ne_eq, Pt.mk.injEq]
    norm_num

/-- C9 (amended): in the two-point pipeline variants the sample points are
exactly landmark indices 3 and 13, with no fallback; the canvas-centre
fallback exists only in the single-point variant, which samples landmark 3
alone when it is present and the canvas centre exactly when it is missing. -/
theorem cheek_sampling_points (positions : List Pt) (w h : ℚ)
    (h14 : 14 ≤ positions.length) :
    cheekPointsMain positions
        = [some (positions.getD 3 ⟨0, 0⟩), some (positions.getD 13 ⟨0, 0⟩)]
      ∧ cheekPoint000 positions w h = positions.getD 3 ⟨0, 0⟩
      ∧ cheekPoint000 [] w h = ⟨w / 2, h / 2⟩ := by
  have h3 : positions[3]? = some positions[3] := List.getElem?_eq_getElem (by omega)
  have h13 : positions[13]? = some positions[13] := List.getElem?_eq_getElem (by omega)
  refine ⟨?_, ?_, rfl⟩
  · simp [cheekPointsMain, h3, h13, List.getD_eq_getElem?_getD]
  · simp [cheekPoint000, h3, List.getD_eq_getElem?_getD]

/-- Witness for C9 (amended) on the standard 68-point landmark list. -/
theorem cheek_sampling_points_witness :
    cheekPointsMain stdPositions
        = [some (stdPositions.getD 3 ⟨0, 0⟩), some (stdPositions.getD 13 ⟨0, 0⟩)]
      ∧ cheekPoint000 stdPositions 100 100 = stdPositions.getD 3 ⟨0, 0⟩ :=
  ⟨(cheek_sampling_points stdPositions 100 100 (by decide)).1,
   (cheek_sampling_points stdPositions 100 100 (by decide)).2.1⟩

theorem readByte_inRange (c : Canvas) (p : Pt) (t : ℕ) (ht : t < 4)
    (hwf : c.data.length = 4 * c.w * c.h) (hp : ptInRange c p) :
    readByte c.data (rbIdx c.w p + (t : ℤ)) = some (chanAt c p t) := by
  obtain ⟨hx0, hxw, hy0, hyh⟩ := hp
  have hw0 : (0 : ℤ) ≤ c.w := by positivity
  have hYw : jsRound p.y * (c.w : ℤ) ≤ ((c.h : ℤ) - 1) * c.w :=
    mul_le_mul_of_nonneg_right (by omega) hw0
  have hY0 : (0 : ℤ) ≤ jsRound p.y * c.w := mul_nonneg hy0 hw0
  have hlb : 0 ≤ rbIdx c.w p := by
    unfold rbIdx
    linarith
  have hub : rbIdx c.w p + (t : ℤ) < (c.data.length : ℤ) := by
    unfold rbIdx
    rw [hwf]
    push_cast
    nlinarith
  have hnat : (rbIdx c.w p + (t : ℤ)).toNat < c.data.length := by omega
  unfold readByte
  rw [if_neg (by omega)]
  rw [List.getElem?_eq_getElem hnat]
  unfold chanAt
  rw [List.getElem?_eq_getElem hnat]
  simp

theorem sampleSums_fold (c : Canvas) (pts : List Pt)
    (hwf : c.data.length = 4 * c.w * c.h) (hin : ∀ p ∈ pts, ptInRange c p)
    (a0 b0 q0 : ℚ) :
    pts.foldl (fun acc p =>
      let x := jsRound p.x
      let y := jsRound p.y
      let idx := (y * c.w + x) * 4
      (jsAdd acc.1 (readByte c.data idx),
       jsAdd acc.2.1 (readByte c.data (idx + 1)),
       jsAdd acc.2.2 (readByte c.data (idx + 2))))
      (some a0, some b0, some q0)
      = (some (a0 + (pts.map (fun p => chanAt c p 0)).sum),
         some (b0 + (pts.map (fun p => chanAt c p 1)).sum),
         some (q0 + (pts.map (fun p => chanAt c p 2)).sum)) := by
  induction pts generalizing a0 b0 q0 with
  | nil => simp
  | cons p rest ih =>
      have hp := hin p (List.mem_cons_self p rest)
      have hr0 := readByte_inRange c p 0 (by omega) hwf hp
      have hr1 := readByte_inRange c p 1 (by omega) hwf hp
      have hr2 := readByte_inRange c p 2 (by omega) hwf hp
      push_cast at hr0 hr1 hr2
      rw [add_zero] at hr0
      rw [List.foldl_cons]
      have hstep : (jsAdd (some a0) (readByte c.data (rbIdx c.w p)),
            jsAdd (some b0) (readByte c.data (rbIdx c.w p + 1)),
            jsAdd (some q0) (readByte c.data (rbIdx c.w p + 2)))
          = (some (a0 + chanAt c p 0), some (b0 + chanAt c p 1),
             some (q0 + chanAt c p 2)) := by
        rw [hr0, hr1, hr2]
        rfl
      show List.foldl _ (jsAdd (some a0) (readByte c.data (rbIdx c.w p)),
        jsAdd (some b0) (readByte c.data (rbIdx c.w p + 1)),
        jsAdd (some q0) (readByte c.data (rbIdx c.w p + 2))) rest = _
      rw [hstep, ih (fun q hq => hin q (List.mem_cons_of_mem p hq))]
      simp [add_assoc]

/-- C4: for every non-empty list of in-range sample points on a
well-formed surface, the sampler returns, per channel, the arithmetic mean
of the sampled bytes rounded with `Math.round`; a single point therefore
returns the bytes of that pixel exactly, and two equal pixels return their
common value exactly (see the witness). -/
theorem sampleColor_is_rounded_mean (c : Canvas) (pts : List Pt)
    (hne : pts ≠ []) (hwf : c.data.length = 4 * c.w * c.h)
    (hin : ∀ p ∈ pts, ptInRange c p) :
    sampleColor c pts
      = (some (jsRound ((pts.map (fun p => chanAt c p 0)).sum / pts.length)),
         some (jsRound ((pts.map (fun p => chanAt c p 1)).sum / pts.length)),
         some (jsRound ((pts.map (fun p => chanAt c p 2)).sum / pts.length))) := by
  unfold sampleColor sampleColorData sampleSums
  rw [if_neg (by simpa using hne)]
  rw [sampleSums_fold c pts hwf hin 0 0 0]
  simp

/-- Witness for C4: two sample points both reading the pure colour
(200,150,100) produce exactly `(200, 150, 100)`. -/
theorem sampleColor_is_rounded_mean_witness :
    sampleColor twoPixCanvas [⟨0, 0⟩, ⟨1, 0⟩] = (some 200, some 150, some 100) := by
  have h := sampleColor_is_rounded_mean twoPixCanvas [⟨0, 0⟩, ⟨1, 0⟩]
    (by simp) (by norm_num [twoPixCanvas])
    (by
      intro p hp
      simp only [List.mem_cons, List.not_mem_nil, or_false] at hp
      rcases hp with rfl | rfl <;>
        norm_num [ptInRange, jsRound, twoPixCanvas])
  rw [h]
  have h0 : rbIdx twoPixCanvas.w ⟨0, 0⟩ = 0 := by
    norm_num [rbIdx, jsRound, twoPixCanvas]
  have h1 : rbIdx twoPixCanvas.w ⟨1, 0⟩ = 4 := by
    norm_num [rbIdx, jsRound, twoPixCanvas]
  simp only [chanAt, h0, h1, List.map_cons, List.map_nil]
  norm_num [twoPixCanvas]
  simp
  norm_num [jsRound]

/-- C5 counterexample: the sampler does not clamp.  For the out-of-surface
point `(5, 0)` it computes flat index 20, which is outside the 16-byte
buffer — the read yields `undefined` and the channel sums become NaN
(`none`) — whereas the claimed round-then-clamp semantics would read the
in-bounds pixel `(1, 0)` and return its bytes. -/
theorem sampler_no_clamping_counterexample :
    sampleColor gridCanvas [⟨5, 0⟩] = (none, none, none)
      ∧ sampleColorClamped gridCanvas [⟨5, 0⟩] = (some 4, some 5, some 6)
      ∧ (20 : ℤ) ∈ sampleIdxs gridCanvas [⟨5, 0⟩]
      ∧ ¬ ((20 : ℤ) < (gridCanvas.data.length : ℤ)) := by
  have hj5 : jsRound (5 : ℚ) = 5 := by norm_num [jsRound]
  have hj0 : jsRound (0 : ℚ) = 0 := by norm_num [jsRound]
  have hoob : ∀ k : ℤ, 20 ≤ k →
      readByte [0, 1, 2, 3, 4, 5, 6, 7, 8, 9, 10, 11, 12, 13, 14, 15] k = none := by
    intro k hk
    rw [readByte, if_neg (by omega)]
    rw [List.getElem?_eq_none (by simp; omega)]
    rfl
  have hrd4 : readByte [0, 1, 2, 3, 4, 5, 6, 7, 8, 9, 10, 11, 12, 13, 14, 15]
      4 = some 4 := by
    rw [readByte, if_neg (by norm_num)]
    simp
  have hrd5 : readByte [0, 1, 2, 3, 4, 5, 6, 7, 8, 9, 10, 11, 12, 13, 14, 15]
      5 = some 5 := by
    rw [readByte, if_neg (by norm_num)]
    simp
  have hrd6 : readByte [0, 1, 2, 3, 4, 5, 6, 7, 8, 9, 10, 11, 12, 13, 14, 15]
      6 = some 6 := by
    rw [readByte, if_neg (by norm_num)]
    simp
  refine ⟨?_, ?_, ?_, by norm_num [gridCanvas]⟩
  · simp only [sampleColor, sampleColorData, sampleSums, List.foldl_cons,
      List.foldl_nil, hj5, hj0, gridCanvas]
    norm_num [hj5, hj0]
    rw [hoob 20 (by norm_num), hoob 21 (by norm_num), hoob 22 (by norm_num)]
    exact ⟨rfl, rfl, rfl⟩
  · simp only [sampleColorClamped, List.foldl_cons, List.foldl_nil, hj5, hj0,
      gridCanvas]
    norm_num [hj5, hj0, min_def, max_def]
    rw [hrd4, hrd5, hrd6]
    norm_num [jsAdd, jsRound]
  · simp only [sampleIdxs, List.flatMap_cons, List.flatMap_nil, List.append_nil,
      hj5, hj0, gridCanvas]
    norm_num [List.mem_cons]

/-- C5 (amended): the sampler rounds coordinates with `Math.round` but
performs no clamping; whenever every rounded sample point lies inside
`[0, w-1] x [0, h-1]` on a well-formed surface, every flat index the loop
reads is inside the buffer. -/
theorem sampler_reads_in_bounds (c : Canvas) (pts : List Pt)
    (hwf : c.data.length = 4 * c.w * c.h) (hin : ∀ p ∈ pts, ptInRange c p) :
    ∀ i ∈ sampleIdxs c pts, 0 ≤ i ∧ i < (c.data.length : ℤ) := by
  intro i hi
  unfold sampleIdxs at hi
  rw [List.mem_flatMap] at hi
  obtain ⟨p, hp, hmem⟩ := hi
  obtain ⟨hx0, hxw, hy0, hyh⟩ := hin p hp
  simp only [List.mem_cons, List.not_mem_nil, or_false] at hmem
  have hw0 : (0 : ℤ) ≤ c.w := by positivity
  have hYw : jsRound p.y * (c.w : ℤ) ≤ ((c.h : ℤ) - 1) * c.w :=
    mul_le_mul_of_nonneg_right (by omega) hw0
  have hY0 : (0 : ℤ) ≤ jsRound p.y * c.w := mul_nonneg hy0 hw0
  have hub : (jsRound p.y * (c.w : ℤ) + jsRound p.x) * 4 + 2 < (c.data.length : ℤ) := by
    rw [hwf]
    push_cast
    nlinarith
  have hlb : 0 ≤ (jsRound p.y * (c.w : ℤ) + jsRound p.x) * 4 := by linarith
  rcases hmem with rfl | rfl | rfl <;> constructor <;> linarith

/-- Witness for C5 (amended): the in-range point `(1, 0)` on the 2x1
canvas produces only in-bounds read indices. -/
theorem sampler_reads_in_bounds_witness :
    (0 : ℤ) ≤ 4 ∧ (4 : ℤ) < (twoPixCanvas.data.length : ℤ) := by
  apply sampler_reads_in_bounds twoPixCanvas [⟨1, 0⟩]
    (by norm_num [twoPixCanvas])
    (by
      intro p hp
      simp only [List.mem_cons, List.not_mem_nil, or_false] at hp
      subst hp
      norm_num [ptInRange, jsRound, twoPixCanvas])
  norm_num [sampleIdxs, jsRound, twoPixCanvas]

end FaceEraser
